import Mathlib

/-!
Verification of the text-to-bitmap layout engine of `src/print.py`
(`apply_styling` and `text_to_image`).

The Python code is shallowly embedded:
* `ImageFont.truetype` is modelled against an environment `env : String → Bool`
  that tells which font files can be loaded; loading a missing file raises
  `OSError` in PIL, modelled as `PrintError.fontLoadError`.
* `draw.textbbox((0, 0), line, font)` is an external font-rendering query:
  it is a parameter `mp : Font → String → BBox` (a pure function of the loaded
  font, i.e. path and size, and the text line).
* Python machine-level details are modelled exactly: `str.replace` replaces
  every non-overlapping occurrence left to right (`pyReplace`), `str.split`
  keeps empty fields (`pySplitLines`), `//` is floor division (`Int.fdiv`),
  `int()` truncates toward zero (`pyInt`), and the float division at line 120
  is idealized as exact rational division.
* The `while` loop of lines 81-93 is fuel-indexed (`shrinkLoop`): a `none`
  result means the loop did not finish within the given iteration bound.
* The drawing calls mutate a PIL canvas; the embedding records them as a list
  of `LineOp` (one per text line: optional strikethrough segment, text position,
  drawn string, font used), together with the final raster dimensions.
-/

namespace Catprinter

/-- Errors surfaced by the engine: PIL raises `OSError` when
`ImageFont.truetype` cannot open the requested font file (src/print.py
lines 54 and 57). -/
inductive PrintError where
  | fontLoadError : String → PrintError
deriving DecidableEq, Repr

/-- A loaded PIL font object is determined by the file path and the pixel
size passed to `ImageFont.truetype`. -/
structure Font where
  path : String
  size : Int
deriving DecidableEq, Repr

/-- `ImageFont.truetype(path, size)`: succeeds iff the environment can load
the file at `path`. -/
def truetype (env : String → Bool) (path : String) (size : Int) :
    Except PrintError Font :=
  if env path then .ok ⟨path, size⟩ else .error (.fontLoadError path)

/-- Python `str.replace` scan: at each position (when not inside an already
matched occurrence, `skip = 0`), if `o :: os` matches, emit `new` and skip the
remaining `os.length` matched characters; else keep one character and continue.
Occurrences are non-overlapping and found left to right, as in CPython. -/
def pyReplaceAux (o : Char) (os new : List Char) : List Char → Nat → List Char
  | [], _ => []
  | _ :: rest, skip + 1 => pyReplaceAux o os new rest skip
  | c :: rest, 0 =>
    if List.isPrefixOf (o :: os) (c :: rest) then
      new ++ pyReplaceAux o os new rest os.length
    else
      c :: pyReplaceAux o os new rest 0

/-- Python `str.replace(old, new)` for nonempty `old`: replaces every
non-overlapping occurrence, scanning left to right. (The engine only calls it
with `old = ".ttf"`.) -/
def pyReplace (s old new : String) : String :=
  match old.data with
  | [] => s
  | o :: os => String.mk (pyReplaceAux o os new.data s.data 0)

/-- Substring-occurrence test: `old` occurs in `s` at some position. -/
def containsSub (old : List Char) : List Char → Bool
  | [] => List.isPrefixOf old []
  | c :: rest => List.isPrefixOf old (c :: rest) || containsSub old rest

/-- Python `str.split(sep)` core for a one-character separator: keeps empty
fields, `"".split(sep) = [""]`. -/
def pySplitAux (sep : Char) : List Char → List Char → List (List Char)
  | [], acc => [acc.reverse]
  | c :: rest, acc =>
    if c = sep then acc.reverse :: pySplitAux sep rest []
    else pySplitAux sep rest (c :: acc)

/-- `text.split('\n')` of src/print.py line 64. -/
def pySplitLines (s : String) : List String :=
  (pySplitAux (Char.ofNat 10) s.data []).map (fun cs => String.mk cs)

/-- Result of `draw.textbbox((0, 0), line, font=font)`: the 4-tuple
`(x0, y0, x1, y1)`. -/
structure BBox where
  x0 : Int
  y0 : Int
  x1 : Int
  y1 : Int
deriving DecidableEq, Repr

/-- The accumulated measurements of src/print.py lines 69-79 (and the
identical loop body at lines 84-93): `max_text_width`, `total_height`,
`line_heights`. -/
structure BlockMetrics where
  maxWidth : Int
  totalHeight : Int
  lineHeights : List Int
deriving DecidableEq, Repr

/-- One iteration of the per-line measurement loop (lines 73-79 / 87-93). -/
def measureStep (mp : Font → String → BBox) (font : Font)
    (m : BlockMetrics) (line : String) : BlockMetrics :=
  let b := mp font line
  let lineWidth := b.x1 - b.x0
  let lineHeight := b.y1 - b.y0
  ⟨max m.maxWidth lineWidth, m.totalHeight + lineHeight,
    m.lineHeights ++ [lineHeight]⟩

/-- The measurement loop over all lines, starting from
`max_text_width = 0`, `total_height = 0`, `line_heights = []`. -/
def measureBlock (mp : Font → String → BBox) (font : Font)
    (lines : List String) : BlockMetrics :=
  lines.foldl (measureStep mp font) ⟨0, 0, []⟩

/-- `apply_styling` (src/print.py lines 53-59): loads the font; if `bold`,
reloads from the path with every `.ttf` replaced by `-Bold.ttf`; `italic` and
`strikethrough` are accepted but never consulted; returns the font and the
unchanged text. -/
def apply_styling (env : String → Bool) (text : String) (font_path : String)
    (font_size : Int) (bold : Bool) (italic : Bool) (strikethrough : Bool) :
    Except PrintError (Font × String) :=
  match truetype env font_path font_size with
  | .error e => .error e
  | .ok font =>
    if bold then
      match truetype env (pyReplace font_path ".ttf" "-Bold.ttf") font_size with
      | .error e => .error e
      | .ok font2 => .ok (font2, text)
    else .ok (font, text)

/-- The `while max_text_width > max_width` loop (src/print.py lines 81-93),
fuel-indexed. Each iteration decrements `font_size`, reloads the font from
`font_path` (the regular path — not the styled one), and remeasures every
line with the new font. `.ok none` means the loop was still running when the
fuel ran out. -/
def shrinkLoop (env : String → Bool) (mp : Font → String → BBox)
    (fontPath : String) (lines : List String) (maxWidth : Int) :
    Nat → Font → Int → BlockMetrics →
    Except PrintError (Option (Font × Int × BlockMetrics))
  | 0, font, fontSize, m =>
    if m.maxWidth > maxWidth then .ok none else .ok (some (font, fontSize, m))
  | fuel + 1, font, fontSize, m =>
    if m.maxWidth > maxWidth then
      match truetype env fontPath (fontSize - 1) with
      | .error e => .error e
      | .ok font2 =>
        shrinkLoop env mp fontPath lines maxWidth fuel font2 (fontSize - 1)
          (measureBlock mp font2 lines)
    else .ok (some (font, fontSize, m))

/-- One drawing operation of the compositor loop (lines 102-117): the
optional strikethrough segment `(x0, y, x1, y)` passed to `draw.line`, the
`(x_position, current_y)` passed to `draw.text`, the line drawn, and the font
used. -/
structure LineOp where
  strike : Option (Int × Int × Int × Int)
  xPos : Int
  yPos : Int
  line : String
  font : Font
deriving DecidableEq, Repr

/-- Horizontal placement per alignment (src/print.py lines 107-114):
`center` gives `(image_width - line_width) // 2`, `right` gives
`image_width - line_width`, anything else gives `0`. The line width is
remeasured from the bbox exactly as at lines 108 and 111. -/
def lineXPos (mp : Font → String → BBox) (font : Font) (imageWidth : Int)
    (align : String) (line : String) : Int :=
  if align = "center" then
    let b := mp font line
    Int.fdiv (imageWidth - (b.x1 - b.x0)) 2
  else if align = "right" then
    let b := mp font line
    imageWidth - (b.x1 - b.x0)
  else 0

/-- The compositor loop over `zip(lines, line_heights)` (lines 101-117):
strikethrough segment from the origin-based bbox at
`y = current_y + line_height // 2`, then the aligned text draw, then the
vertical cursor advances by the line height. -/
def compositeLines (mp : Font → String → BBox) (font : Font)
    (imageWidth : Int) (strikethrough : Bool) (align : String) :
    List (String × Int) → Int → List LineOp
  | [], _ => []
  | (line, lineHeight) :: rest, currentY =>
    let strike :=
      if strikethrough then
        let b := mp font line
        some (b.x0, currentY + Int.fdiv lineHeight 2,
              b.x1, currentY + Int.fdiv lineHeight 2)
      else none
    { strike := strike
      xPos := lineXPos mp font imageWidth align line
      yPos := currentY
      line := line
      font := font } ::
      compositeLines mp font imageWidth strikethrough align rest
        (currentY + lineHeight)

/-- Python `int()` on an exact rational: truncation toward zero. -/
def pyInt (q : ℚ) : Int :=
  if 0 ≤ q then ⌊q⌋ else ⌈q⌉

/-- The final resize (src/print.py lines 119-122): when the canvas width
differs from `max_width`, scale both dimensions by
`scale_factor = max_width / width` (exact rational for the Python float
division) with the new height `int(height * scale_factor)`; otherwise the
canvas passes through unchanged. -/
def normalizeDims (width height maxWidth : Int) : Int × Int :=
  if width ≠ maxWidth then
    let scaleFactor : ℚ := (maxWidth : ℚ) / (width : ℚ)
    (maxWidth, pyInt ((height : ℚ) * scaleFactor))
  else (width, height)

/-- The engine's output: final raster dimensions plus the recorded drawing
operations of the compositor. -/
structure RenderResult where
  width : Int
  height : Int
  ops : List LineOp
deriving DecidableEq, Repr

/-- Lines 95-122 of src/print.py, after the shrink loop has settled on
`font`, `font_size` and metrics `m`: padding, canvas allocation, compositor
loop, final resize. -/
def finishRender (mp : Font → String → BBox) (strikethrough : Bool)
    (align : String) (lines : List String) (max_width : Int)
    (font : Font) (font_size : Int) (m : BlockMetrics) : RenderResult :=
  let padding := Int.fdiv font_size 5
  let image_width := max m.maxWidth max_width
  let image_height := m.totalHeight + padding * 2
  let ops := compositeLines mp font image_width strikethrough align
    (lines.zip m.lineHeights) padding
  let wh := normalizeDims image_width image_height max_width
  ⟨wh.1, wh.2, ops⟩

/-- `text_to_image` (src/print.py lines 61-124): styling, line split,
initial measurement, shrink loop, composition, final resize. The saved image
is returned as a `RenderResult`; `.ok none` means the shrink loop exceeded
the fuel bound (the Python loop is unbounded). -/
def text_to_image (env : String → Bool) (mp : Font → String → BBox)
    (text : String) (font_path : String) (font_size : Int) (max_width : Int)
    (bold : Bool) (italic : Bool) (strikethrough : Bool) (align : String)
    (fuel : Nat) : Except PrintError (Option RenderResult) :=
  match apply_styling env text font_path font_size bold italic strikethrough with
  | .error e => .error e
  | .ok (font, styled_text) =>
    let lines := pySplitLines styled_text
    let m := measureBlock mp font lines
    match shrinkLoop env mp font_path lines max_width fuel font font_size m with
    | .error e => .error e
    | .ok none => .ok none
    | .ok (some (font2, fontSize2, m2)) =>
      .ok (some (finishRender mp strikethrough align lines max_width
        font2 fontSize2 m2))

/-! Concrete environments and metrics providers used to exercise the engine
on closed inputs. -/

/-- Environment in which every font file loads. -/
def envAll : String → Bool := fun _ => true

/-- Environment in which only `arial.otf` exists. -/
def envOtf : String → Bool := fun p => p == "arial.otf"

/-- Environment in which `arial.ttf` and its bold sibling exist. -/
def envBold : String → Bool :=
  fun p => p == "arial.ttf" || p == "arial-Bold.ttf"

/-- Metrics provider whose line width is `size · length` and line height is
the font size (a simple proportional font model). -/
def mpA : Font → String → BBox :=
  fun f line => ⟨0, 0, f.size * (line.length : Int), f.size⟩

/-- Metrics provider whose line width is `20 · size` for every line: at the
requested size 20 a line measures 400 px (wider than 384), at size 19 it
measures 380 px (fits). -/
def mpB : Font → String → BBox := fun f _ => ⟨0, 0, f.size * 20, f.size⟩

/-- Constant metrics provider: every line has bbox `(0, 0, 20, 10)`. -/
def mpC : Font → String → BBox := fun _ _ => ⟨0, 0, 20, 10⟩

/-- Metrics provider whose lines measure 1000 px wide at every font size:
the width never fits a 384 px target no matter how far the size shrinks. -/
def mpWide : Font → String → BBox := fun _ _ => ⟨0, 0, 1000, 10⟩

/-- Metrics provider measuring every line as empty (the PIL bbox of `""`). -/
def mpZero : Font → String → BBox := fun _ _ => ⟨0, 0, 0, 0⟩

/-- The raster produced for `"Hi"`, size 20, target 384, centered, under
`mpA` (used by the concrete instantiation of claim C1). -/
def rC1 : RenderResult :=
  ⟨384, 28, [⟨none, 172, 4, "Hi", ⟨"arial.ttf", 20⟩⟩]⟩

/-- The single drawing operation of the centered `"Hi"` render under `mpA`
(used by the concrete instantiation of claim C6). -/
def opC6 : LineOp := ⟨none, 172, 4, "Hi", ⟨"arial.ttf", 20⟩⟩

/-- The raster holding `opC6` (used by the concrete instantiation of
claim C6). -/
def rC6 : RenderResult := ⟨384, 28, [opC6]⟩

/-! Helper lemmas. -/

/-- The resize step always delivers a raster of width exactly `maxWidth`:
either the canvas already has that width, or it is resized to it. -/
theorem normalizeDims_fst (width height maxWidth : Int) :
    (normalizeDims width height maxWidth).1 = maxWidth := by
  unfold normalizeDims
  by_cases h : width ≠ maxWidth
  · simp [h]
  · simp only [ne_eq, not_not] at h
    simp [h]

/-- A canvas already at the target width passes through the resize step
unchanged. -/
theorem normalizeDims_self (height maxWidth : Int) :
    normalizeDims maxWidth height maxWidth = (maxWidth, height) := by
  simp [normalizeDims]

/-- The final raster width of the composition-and-resize stage. -/
theorem finishRender_width (mp : Font → String → BBox) (strikethrough : Bool)
    (align : String) (lines : List String) (max_width : Int) (font : Font)
    (font_size : Int) (m : BlockMetrics) :
    (finishRender mp strikethrough align lines max_width font font_size
      m).width = max_width :=
  normalizeDims_fst _ _ _

/-- The drawing operations recorded by the composition stage. -/
theorem finishRender_ops (mp : Font → String → BBox) (strikethrough : Bool)
    (align : String) (lines : List String) (max_width : Int) (font : Font)
    (font_size : Int) (m : BlockMetrics) :
    (finishRender mp strikethrough align lines max_width font font_size
      m).ops =
      compositeLines mp font (max m.maxWidth max_width) strikethrough align
        (lines.zip m.lineHeights) (Int.fdiv font_size 5) := rfl

/-- When the metrics fit the target width, the canvas width equals the target
and the final height is the block height plus twice the padding. -/
theorem finishRender_height_of_fit (mp : Font → String → BBox)
    (strikethrough : Bool) (align : String) (lines : List String)
    (max_width : Int) (font : Font) (font_size : Int) (m : BlockMetrics)
    (hm : m.maxWidth ≤ max_width) :
    (finishRender mp strikethrough align lines max_width font font_size
      m).height = m.totalHeight + Int.fdiv font_size 5 * 2 := by
  have hiw : max m.maxWidth max_width = max_width := max_eq_right hm
  show (normalizeDims (max m.maxWidth max_width)
    (m.totalHeight + Int.fdiv font_size 5 * 2) max_width).2 = _
  rw [hiw, normalizeDims_self]

/-- The shrink loop exits at once, for any fuel, when the metrics it is
handed already fit. -/
theorem shrinkLoop_fit_immediate (env : String → Bool)
    (mp : Font → String → BBox) (fontPath : String) (lines : List String)
    (maxWidth : Int) (fuel : Nat) (font : Font) (fontSize : Int)
    (m : BlockMetrics) (hm : m.maxWidth ≤ maxWidth) :
    shrinkLoop env mp fontPath lines maxWidth fuel font fontSize m =
      .ok (some (font, fontSize, m)) := by
  cases fuel with
  | zero => unfold shrinkLoop; rw [if_neg (by omega)]
  | succ fuel => unfold shrinkLoop; rw [if_neg (by omega)]

/-- Whatever state the shrink loop returns satisfies the loop's exit
condition: the measured block width fits the target width. -/
theorem shrinkLoop_fits (env : String → Bool) (mp : Font → String → BBox)
    (fontPath : String) (lines : List String) (maxWidth : Int) :
    ∀ (fuel : Nat) (font : Font) (fontSize : Int) (m : BlockMetrics)
      (font2 : Font) (fontSize2 : Int) (m2 : BlockMetrics),
      shrinkLoop env mp fontPath lines maxWidth fuel font fontSize m =
        .ok (some (font2, fontSize2, m2)) →
      m2.maxWidth ≤ maxWidth := by
  intro fuel
  induction fuel with
  | zero =>
    intro font fontSize m font2 fontSize2 m2 h
    unfold shrinkLoop at h
    split at h
    · exact absurd h (by simp)
    · next hc =>
      simp only [Except.ok.injEq, Option.some.injEq, Prod.mk.injEq] at h
      obtain ⟨-, -, h3⟩ := h
      subst h3
      omega
  | succ fuel ih =>
    intro font fontSize m font2 fontSize2 m2 h
    unfold shrinkLoop at h
    split at h
    · split at h
      · exact absurd h (by simp)
      · exact ih _ _ _ _ _ _ h
    · next hc =>
      simp only [Except.ok.injEq, Option.some.injEq, Prod.mk.injEq] at h
      obtain ⟨-, -, h3⟩ := h
      subst h3
      omega

/-- Every recorded drawing operation uses the compositor's font and the
alignment-derived x position for its own line. -/
theorem compositeLines_mem (mp : Font → String → BBox) (font : Font)
    (imageWidth : Int) (strikethrough : Bool) (align : String) :
    ∀ (ps : List (String × Int)) (currentY : Int) (op : LineOp),
      op ∈ compositeLines mp font imageWidth strikethrough align ps currentY →
      op.font = font ∧
      op.xPos = lineXPos mp font imageWidth align op.line := by
  intro ps
  induction ps with
  | nil =>
    intro currentY op h
    simp [compositeLines] at h
  | cons p rest ih =>
    intro currentY op h
    obtain ⟨line, lineHeight⟩ := p
    unfold compositeLines at h
    simp only [List.mem_cons] at h
    rcases h with h | h
    · subst h
      exact ⟨rfl, rfl⟩
    · exact ih _ op h

/-- Unfolding `text_to_image` when styling succeeds and the shrink loop
terminates. -/
theorem text_to_image_eq (env : String → Bool) (mp : Font → String → BBox)
    (text font_path : String) (font_size max_width : Int)
    (bold italic strikethrough : Bool) (align : String) (fuel : Nat)
    (f0 : Font) (st : String) (font2 : Font) (fontSize2 : Int)
    (m2 : BlockMetrics)
    (happ : apply_styling env text font_path font_size bold italic
      strikethrough = .ok (f0, st))
    (hloop : shrinkLoop env mp font_path (pySplitLines st) max_width fuel f0
      font_size (measureBlock mp f0 (pySplitLines st)) =
        .ok (some (font2, fontSize2, m2))) :
    text_to_image env mp text font_path font_size max_width bold italic
        strikethrough align fuel =
      .ok (some (finishRender mp strikethrough align (pySplitLines st)
        max_width font2 fontSize2 m2)) := by
  unfold text_to_image
  rw [happ]
  dsimp only
  rw [hloop]

/-- Unfolding `text_to_image` when styling succeeds and the shrink loop runs
out of fuel. -/
theorem text_to_image_none (env : String → Bool) (mp : Font → String → BBox)
    (text font_path : String) (font_size max_width : Int)
    (bold italic strikethrough : Bool) (align : String) (fuel : Nat)
    (f0 : Font) (st : String)
    (happ : apply_styling env text font_path font_size bold italic
      strikethrough = .ok (f0, st))
    (hloop : shrinkLoop env mp font_path (pySplitLines st) max_width fuel f0
      font_size (measureBlock mp f0 (pySplitLines st)) = .ok none) :
    text_to_image env mp text font_path font_size max_width bold italic
      strikethrough align fuel = .ok none := by
  unfold text_to_image
  rw [happ]
  dsimp only
  rw [hloop]

/-- Inversion: a returned raster comes from a successful styling step, a
terminating shrink loop, and the composition-and-resize stage. -/
theorem text_to_image_inv (env : String → Bool) (mp : Font → String → BBox)
    (text font_path : String) (font_size max_width : Int)
    (bold italic strikethrough : Bool) (align : String) (fuel : Nat)
    (r : RenderResult)
    (h : text_to_image env mp text font_path font_size max_width bold italic
      strikethrough align fuel = .ok (some r)) :
    ∃ (f0 : Font) (st : String) (font2 : Font) (fontSize2 : Int)
      (m2 : BlockMetrics),
      apply_styling env text font_path font_size bold italic strikethrough =
        .ok (f0, st) ∧
      shrinkLoop env mp font_path (pySplitLines st) max_width fuel f0
        font_size (measureBlock mp f0 (pySplitLines st)) =
          .ok (some (font2, fontSize2, m2)) ∧
      r = finishRender mp strikethrough align (pySplitLines st) max_width
        font2 fontSize2 m2 := by
  cases happ : apply_styling env text font_path font_size bold italic
      strikethrough with
  | error e =>
    unfold text_to_image at h
    rw [happ] at h
    exact absurd h (by simp)
  | ok v =>
    obtain ⟨f0, st⟩ := v
    unfold text_to_image at h
    rw [happ] at h
    dsimp only at h
    cases hloop : shrinkLoop env mp font_path (pySplitLines st) max_width
        fuel f0 font_size (measureBlock mp f0 (pySplitLines st)) with
    | error e =>
      rw [hloop] at h
      exact absurd h (by simp)
    | ok o =>
      cases o with
      | none =>
        rw [hloop] at h
        exact absurd h (by simp)
      | some trip =>
        obtain ⟨font2, fontSize2, m2⟩ := trip
        rw [hloop] at h
        dsimp only at h
        simp only [Except.ok.injEq, Option.some.injEq] at h
        exact ⟨f0, st, font2, fontSize2, m2, rfl, hloop, h.symm⟩

/-- `pyReplace` is the identity when the pattern occurs nowhere in the
string. -/
theorem pyReplaceAux_no_occurrence (o : Char) (os new : List Char) :
    ∀ s : List Char, containsSub (o :: os) s = false →
      pyReplaceAux o os new s 0 = s := by
  intro s
  induction s with
  | nil => intro _; rfl
  | cons c rest ih =>
    intro h
    unfold containsSub at h
    rw [Bool.or_eq_false_iff] at h
    obtain ⟨h1, h2⟩ := h
    unfold pyReplaceAux
    rw [if_neg (by simp [h1])]
    rw [ih h2]

/-- A font path not containing `.ttf` is unchanged by the bold-variant
derivation. -/
theorem pyReplace_no_ttf (p : String)
    (h : containsSub (String.data ".ttf") p.data = false) :
    pyReplace p ".ttf" "-Bold.ttf" = p := by
  have h2 : pyReplaceAux '.' ['t', 't', 'f'] (String.data "-Bold.ttf")
      p.data 0 = p.data :=
    pyReplaceAux_no_occurrence '.' ['t', 't', 'f'] (String.data "-Bold.ttf")
      p.data h
  show String.mk (pyReplaceAux '.' ['t', 't', 'f'] (String.data "-Bold.ttf")
    p.data 0) = p
  rw [h2]

/-- Under `mpWide` every line measures 1000 px at every size, so the shrink
loop never satisfies its exit condition: for every fuel bound it is still
running. -/
theorem shrinkLoop_mpWide_none (fuel : Nat) :
    ∀ (font : Font) (fontSize : Int),
      shrinkLoop envAll mpWide "arial.ttf" ["X"] 384 fuel font fontSize
        (measureBlock mpWide font ["X"]) = .ok none := by
  induction fuel with
  | zero =>
    intro font fontSize
    unfold shrinkLoop
    rw [if_pos (by show (384 : Int) < max 0 (1000 - 0); norm_num)]
  | succ fuel ih =>
    intro font fontSize
    unfold shrinkLoop
    rw [if_pos (by show (384 : Int) < max 0 (1000 - 0); norm_num)]
    exact ih ⟨"arial.ttf", fontSize - 1⟩ (fontSize - 1)

/-! Claim theorems. -/

/-- Claim C1: for every input on which the engine returns a raster — any
text, font path, requested size, style flags, alignment, and any fuel bound
under which the shrink loop terminates — the raster's width equals exactly
the target print width `max_width`. -/
theorem output_width_exact (env : String → Bool) (mp : Font → String → BBox)
    (text font_path : String) (font_size max_width : Int)
    (bold italic strikethrough : Bool) (align : String) (fuel : Nat)
    (r : RenderResult)
    (h : text_to_image env mp text font_path font_size max_width bold italic
      strikethrough align fuel = .ok (some r)) :
    r.width = max_width := by
  obtain ⟨f0, st, font2, fontSize2, m2, -, -, hr⟩ :=
    text_to_image_inv env mp text font_path font_size max_width bold italic
      strikethrough align fuel r h
  rw [hr]
  exact finishRender_width mp strikethrough align (pySplitLines st) max_width
    font2 fontSize2 m2

/-- Witness for claim C1: a concrete centered two-character render at target
width 384 returns a raster of width 384. -/
theorem output_width_exact_witness : rC1.width = 384 :=
  output_width_exact envAll mpA "Hi" "arial.ttf" 20 384 false false false
    "center" 5 rC1 rfl

/-- Claim C2, refuted (code bug): the shrink search of src/print.py lines
81-93 has no minimum font-size floor and never signals an overconstrained
layout. Under a metrics provider whose lines never fit the target width, the
loop is still running after every bound of iterations — starting from any
requested font size, including sizes where it has long since decremented the
size past 1 into zero and negative values. -/
theorem shrink_no_floor_never_terminates (fuel : Nat) (font_size : Int) :
    text_to_image envAll mpWide "X" "arial.ttf" font_size 384 false false
      false "left" fuel = .ok none :=
  text_to_image_none envAll mpWide "X" "arial.ttf" font_size 384 false false
    false "left" fuel ⟨"arial.ttf", font_size⟩ "X" rfl
    (shrinkLoop_mpWide_none fuel ⟨"arial.ttf", font_size⟩ font_size)

/-- Claim C4, refuted (code bug): with bold requested and one shrink
iteration needed (400 px at size 20, 380 px at size 19 against target 384),
the final drawing operation uses the regular `arial.ttf` at size 19 — the
bold-variant resource `arial-Bold.ttf` selected by `apply_styling` is
dropped when line 83 reloads the font from the regular path. -/
theorem bold_variant_dropped_after_shrink :
    text_to_image envAll mpB "W" "arial.ttf" 20 384 true false false "left"
        5 =
      .ok (some ⟨384, 25, [⟨none, 0, 3, "W", ⟨"arial.ttf", 19⟩⟩]⟩) ∧
    pyReplace "arial.ttf" ".ttf" "-Bold.ttf" = "arial-Bold.ttf" ∧
    ("arial.ttf" : String) ≠ "arial-Bold.ttf" :=
  ⟨rfl, rfl, by decide⟩

/-- Claim C5, counterexample: for the font path `arial.otf` — loadable,
while no bold variant of any name exists — a bold render does not fail with
a font-load error: `replace('.ttf', '-Bold.ttf')` changes nothing, the
regular file is reloaded, and the regular font is silently used. -/
theorem bold_silent_fallback :
    apply_styling envOtf "hi" "arial.otf" 20 true false false =
      .ok (⟨"arial.otf", 20⟩, "hi") ∧
    pyReplace "arial.otf" ".ttf" "-Bold.ttf" = "arial.otf" :=
  ⟨rfl, rfl⟩

/-- Claim C7, refuted (code bug): with strikethrough and right alignment,
the glyph run of `"Hi"` (bbox `(0, 0, 20, 10)`) is drawn at
`x_position = 364`, i.e. columns 364-384, while the strikethrough segment is
drawn at the origin-based bbox columns 0-20 (line 105 never adds
`x_position`), so it does not span the drawn glyph run. -/
theorem strikethrough_ignores_alignment :
    text_to_image envAll mpC "Hi" "arial.ttf" 20 384 false false true
        "right" 5 =
      .ok (some ⟨384, 18,
        [⟨some (0, 9, 20, 9), 364, 4, "Hi", ⟨"arial.ttf", 20⟩⟩]⟩) ∧
    ((20 : Int) < 364 ∧ 364 + (20 : Int) = 384) :=
  ⟨rfl, by decide⟩

/-- Claim C8, counterexample: resizing a 512×5 canvas to width 384 uses
`scale = 384/512 = 0.75` and `int(5 · 0.75) = int(3.75) = 3`, whereas
rounding to the nearest integer pixel gives 4. -/
theorem normalizer_truncation_counterexample :
    normalizeDims 512 5 384 = (384, 3) ∧
    round ((5 : ℚ) * ((384 : ℚ) / (512 : ℚ))) = 4 := by
  constructor
  · norm_num [normalizeDims, pyInt]
  · norm_num [round_eq]

/-- Claim C8 (amended): the width normalizer runs once after composition;
it passes a canvas through unchanged when its width already equals the
target, and otherwise resizes to the target width with the new height equal
to `height · (target/width)` truncated toward zero (the floor, for the
nonnegative dimensions that occur), not rounded to nearest. -/
theorem normalizer_spec (width height maxWidth : Int) (hw : 0 < width)
    (hh : 0 ≤ height) (ht : 0 ≤ maxWidth) :
    (normalizeDims width height maxWidth).1 = maxWidth ∧
    (width = maxWidth → normalizeDims width height maxWidth =
      (width, height)) ∧
    (width ≠ maxWidth →
      (normalizeDims width height maxWidth).2 =
        ⌊(height : ℚ) * ((maxWidth : ℚ) / (width : ℚ))⌋) := by
  refine ⟨normalizeDims_fst _ _ _, ?_, ?_⟩
  · intro hEq
    subst hEq
    exact normalizeDims_self _ _
  · intro hne
    unfold normalizeDims
    rw [if_pos hne]
    show pyInt ((height : ℚ) * ((maxWidth : ℚ) / (width : ℚ))) = _
    unfold pyInt
    rw [if_pos]
    apply mul_nonneg
    · exact_mod_cast hh
    · apply div_nonneg
      · exact_mod_cast ht
      · exact_mod_cast le_of_lt hw

/-- Witness for the amended claim C8, at the counterexample's dimensions. -/
theorem normalizer_spec_witness :
    (normalizeDims 512 5 384).1 = 384 ∧
    ((512 : Int) = 384 → normalizeDims 512 5 384 = (512, 5)) ∧
    ((512 : Int) ≠ 384 →
      (normalizeDims 512 5 384).2 =
        ⌊(5 : ℚ) * ((384 : ℚ) / (512 : ℚ))⌋) :=
  normalizer_spec 512 5 384 (by norm_num) (by norm_num) (by norm_num)

/-- Claim C10: the produced raster is bit-identical for any two runs that
differ only in the italic flag — the flag reaches `apply_styling`, which
never consults it, so font selection, measurement and drawing are
unaffected. -/
theorem italic_flag_no_effect (env : String → Bool)
    (mp : Font → String → BBox) (text font_path : String)
    (font_size max_width : Int) (bold strikethrough : Bool) (align : String)
    (fuel : Nat) (italic1 italic2 : Bool) :
    text_to_image env mp text font_path font_size max_width bold italic1
      strikethrough align fuel =
    text_to_image env mp text font_path font_size max_width bold italic2
      strikethrough align fuel := rfl

/-- Claim C3: assuming measured block width is monotone non-increasing as
the font size decreases, the shrink search returns the largest font size at
most the requested `s0` whose block width fits the target `T` (given enough
fuel to reach a fitting size `s1`); in particular it returns `s0` itself
whenever the block already fits at `s0`, and never a size above `s0`. -/
theorem shrink_search_largest_fit (env : String → Bool)
    (mp : Font → String → BBox) (fontPath : String) (lines : List String)
    (T s1 : Int) (fuel : Nat) (s0 : Int)
    (henv : env fontPath = true)
    (hmono : ∀ a b : Int, a ≤ b →
      (measureBlock mp ⟨fontPath, a⟩ lines).maxWidth ≤
        (measureBlock mp ⟨fontPath, b⟩ lines).maxWidth)
    (hfit : (measureBlock mp ⟨fontPath, s1⟩ lines).maxWidth ≤ T)
    (hle : s1 ≤ s0) (hfuel : (s0 - s1).toNat ≤ fuel) :
    ∃ s : Int,
      shrinkLoop env mp fontPath lines T fuel ⟨fontPath, s0⟩ s0
          (measureBlock mp ⟨fontPath, s0⟩ lines) =
        .ok (some (⟨fontPath, s⟩, s, measureBlock mp ⟨fontPath, s⟩ lines)) ∧
      s ≤ s0 ∧
      (measureBlock mp ⟨fontPath, s⟩ lines).maxWidth ≤ T ∧
      (∀ u : Int, s < u → u ≤ s0 →
        T < (measureBlock mp ⟨fontPath, u⟩ lines).maxWidth) ∧
      ((measureBlock mp ⟨fontPath, s0⟩ lines).maxWidth ≤ T → s = s0) := by
  revert hle hfuel
  induction fuel generalizing s0 with
  | zero =>
    intro hle hfuel
    have hs0 : s0 = s1 := by omega
    subst hs0
    refine ⟨s0, ?_, le_refl _, hfit, ?_, fun _ => rfl⟩
    · exact shrinkLoop_fit_immediate env mp fontPath lines T 0
        ⟨fontPath, s0⟩ s0 _ hfit
    · intro u h1 h2
      omega
  | succ fuel ih =>
    intro hle hfuel
    by_cases h0 : (measureBlock mp ⟨fontPath, s0⟩ lines).maxWidth ≤ T
    · refine ⟨s0, ?_, le_refl _, h0, ?_, fun _ => rfl⟩
      · exact shrinkLoop_fit_immediate env mp fontPath lines T (fuel + 1)
          ⟨fontPath, s0⟩ s0 _ h0
      · intro u h1 h2
        omega
    · push_neg at h0
      have hs1 : s1 < s0 := by
        rcases lt_or_le s1 s0 with h | h
        · exact h
        · exact absurd (le_trans (hmono s0 s1 h) hfit) (not_le.mpr h0)
      obtain ⟨s, hloop, hsle, hsfit, hlargest, -⟩ :=
        ih (s0 - 1) (by omega) (by omega)
      refine ⟨s, ?_, by omega, hsfit, ?_, ?_⟩
      · unfold shrinkLoop
        rw [if_pos (by omega)]
        have ht2 : truetype env fontPath (s0 - 1) =
            .ok ⟨fontPath, s0 - 1⟩ := by
          simp [truetype, henv]
        rw [ht2]
        exact hloop
      · intro u h1 h2
        rcases lt_or_le u s0 with h3 | h3
        · exact hlargest u h1 (by omega)
        · have hu : u = s0 := by omega
          subst hu
          exact h0
      · intro hcontra
        exact absurd hcontra (not_le.mpr h0)

/-- Witness for claim C3: under `mpA` with line `"Hi"` (width `2 · size`),
target 30, requested size 20 and a fitting size 15 within fuel 10, the
search returns the largest fitting size. -/
theorem shrink_search_largest_fit_witness :
    ∃ s : Int,
      shrinkLoop envAll mpA "arial.ttf" ["Hi"] 30 10 ⟨"arial.ttf", 20⟩ 20
          (measureBlock mpA ⟨"arial.ttf", 20⟩ ["Hi"]) =
        .ok (some (⟨"arial.ttf", s⟩, s,
          measureBlock mpA ⟨"arial.ttf", s⟩ ["Hi"])) ∧
      s ≤ 20 ∧
      (measureBlock mpA ⟨"arial.ttf", s⟩ ["Hi"]).maxWidth ≤ 30 ∧
      (∀ u : Int, s < u → u ≤ 20 →
        30 < (measureBlock mpA ⟨"arial.ttf", u⟩ ["Hi"]).maxWidth) ∧
      ((measureBlock mpA ⟨"arial.ttf", 20⟩ ["Hi"]).maxWidth ≤ 30 →
        s = 20) :=
  shrink_search_largest_fit envAll mpA "arial.ttf" ["Hi"] 30 15 10 20 rfl
    (fun a b hab => by
      show max (0 : Int) (a * 2 - 0) ≤ max 0 (b * 2 - 0)
      omega)
    (by decide) (by decide) (by decide)

/-- Claim C5 (amended): when bold is requested and the regular font loads,
the font resource used is at the path obtained from the given path by
replacing every occurrence of `.ttf` with `-Bold.ttf` (for a path containing
`.ttf` exactly once, as its suffix, this is the `-Bold.ttf` sibling);
loading fails with a font-load error naming that derived path exactly when
the environment cannot load it; and when the path contains no `.ttf` at all
the derived path is the original path itself, so the regular font is
silently reused rather than failing. -/
theorem bold_font_derivation (env : String → Bool) (text font_path : String)
    (font_size : Int) (italic strikethrough : Bool)
    (hreg : env font_path = true) :
    (env (pyReplace font_path ".ttf" "-Bold.ttf") = true →
      apply_styling env text font_path font_size true italic strikethrough =
        .ok (⟨pyReplace font_path ".ttf" "-Bold.ttf", font_size⟩, text)) ∧
    (env (pyReplace font_path ".ttf" "-Bold.ttf") = false →
      apply_styling env text font_path font_size true italic strikethrough =
        .error (.fontLoadError (pyReplace font_path ".ttf" "-Bold.ttf"))) ∧
    (containsSub (String.data ".ttf") font_path.data = false →
      pyReplace font_path ".ttf" "-Bold.ttf" = font_path) := by
  refine ⟨?_, ?_, pyReplace_no_ttf font_path⟩
  · intro hb
    unfold apply_styling truetype
    rw [hreg, hb]
    simp
  · intro hb
    unfold apply_styling truetype
    rw [hreg, hb]
    simp

/-- Witness for the amended claim C5 at the path `arial.ttf`, with the
regular font and the bold sibling both present. -/
theorem bold_font_derivation_witness :
    (envBold (pyReplace "arial.ttf" ".ttf" "-Bold.ttf") = true →
      apply_styling envBold "hi" "arial.ttf" 20 true false false =
        .ok (⟨pyReplace "arial.ttf" ".ttf" "-Bold.ttf", 20⟩, "hi")) ∧
    (envBold (pyReplace "arial.ttf" ".ttf" "-Bold.ttf") = false →
      apply_styling envBold "hi" "arial.ttf" 20 true false false =
        .error (.fontLoadError (pyReplace "arial.ttf" ".ttf" "-Bold.ttf"))) ∧
    (containsSub (String.data ".ttf") (String.data "arial.ttf") = false →
      pyReplace "arial.ttf" ".ttf" "-Bold.ttf" = "arial.ttf") :=
  bold_font_derivation envBold "hi" "arial.ttf" 20 false false rfl

/-- Claim C6: every drawn line's horizontal placement follows the alignment
flag against the final raster width: left alignment places the line at
x = 0; center alignment at x = (width − line_width) floor-divided by 2,
within one pixel of exact center; right alignment at
x = width − line_width, so the glyph run's right edge lands on the canvas's
last column. -/
theorem alignment_placement (env : String → Bool) (mp : Font → String → BBox)
    (text font_path : String) (font_size max_width : Int)
    (bold italic strikethrough : Bool) (align : String) (fuel : Nat)
    (r : RenderResult) (op : LineOp)
    (h : text_to_image env mp text font_path font_size max_width bold italic
      strikethrough align fuel = .ok (some r))
    (hop : op ∈ r.ops) :
    (align = "left" → op.xPos = 0) ∧
    (align = "center" →
      op.xPos = Int.fdiv
        (r.width - ((mp op.font op.line).x1 - (mp op.font op.line).x0)) 2 ∧
      (2 * op.xPos -
        (r.width -
          ((mp op.font op.line).x1 - (mp op.font op.line).x0))).natAbs
        ≤ 1) ∧
    (align = "right" →
      op.xPos + ((mp op.font op.line).x1 - (mp op.font op.line).x0) =
        r.width) := by
  obtain ⟨f0, st, font2, fontSize2, m2, happ, hloop, hr⟩ :=
    text_to_image_inv env mp text font_path font_size max_width bold italic
      strikethrough align fuel r h
  have hfit : m2.maxWidth ≤ max_width :=
    shrinkLoop_fits env mp font_path (pySplitLines st) max_width fuel f0
      font_size _ font2 fontSize2 m2 hloop
  have hiw : max m2.maxWidth max_width = max_width := max_eq_right hfit
  have hwidth : r.width = max_width := by
    rw [hr]
    exact finishRender_width _ _ _ _ _ _ _ _
  have hops : r.ops = compositeLines mp font2 max_width strikethrough align
      ((pySplitLines st).zip m2.lineHeights) (Int.fdiv fontSize2 5) := by
    rw [hr, finishRender_ops, hiw]
  rw [hops] at hop
  obtain ⟨hfont, hx⟩ := compositeLines_mem mp font2 max_width strikethrough
    align _ _ op hop
  refine ⟨?_, ?_, ?_⟩
  · intro hl
    subst hl
    rw [hx]
    rfl
  · intro hc
    subst hc
    rw [hx, hfont, hwidth]
    have hlx : lineXPos mp font2 max_width "center" op.line =
        Int.fdiv
          (max_width - ((mp font2 op.line).x1 - (mp font2 op.line).x0)) 2 :=
      rfl
    rw [hlx]
    refine ⟨rfl, ?_⟩
    rw [Int.fdiv_eq_ediv _ (by norm_num)]
    omega
  · intro hrt
    subst hrt
    rw [hx, hfont, hwidth]
    have hlx : lineXPos mp font2 max_width "right" op.line =
        max_width - ((mp font2 op.line).x1 - (mp font2 op.line).x0) := rfl
    rw [hlx]
    omega

/-- Witness for claim C6: the centered `"Hi"` render (line width 40, canvas
width 384) places its one line at x = 172 = (384 − 40) div 2. -/
theorem alignment_placement_witness :
    (("center" : String) = "left" → opC6.xPos = 0) ∧
    (("center" : String) = "center" →
      opC6.xPos = Int.fdiv
        (rC6.width - ((mpA opC6.font opC6.line).x1 -
          (mpA opC6.font opC6.line).x0)) 2 ∧
      (2 * opC6.xPos -
        (rC6.width - ((mpA opC6.font opC6.line).x1 -
          (mpA opC6.font opC6.line).x0))).natAbs ≤ 1) ∧
    (("center" : String) = "right" →
      opC6.xPos + ((mpA opC6.font opC6.line).x1 -
        (mpA opC6.font opC6.line).x0) = rC6.width) :=
  alignment_placement envAll mpA "Hi" "arial.ttf" 20 384 false false false
    "center" 5 rC6 opC6 rfl (by decide)

/-- Claim C9: for empty text input the engine returns a raster of width
exactly the target and height at least `2 · (font_size div 5)` — twice the
padding — rather than raising an error: the empty string splits into the
single empty line, whose measured extent fits the target, so the requested
size is kept and only padding surrounds the (empty) block. -/
theorem empty_text_minimal_raster (env : String → Bool)
    (mp : Font → String → BBox) (font_path : String)
    (font_size max_width : Int) (bold italic strikethrough : Bool)
    (align : String) (fuel : Nat) (f0 : Font)
    (happ : apply_styling env "" font_path font_size bold italic
      strikethrough = .ok (f0, ""))
    (hw : (mp f0 "").x1 - (mp f0 "").x0 ≤ max_width)
    (hT : 0 ≤ max_width)
    (hh : 0 ≤ (mp f0 "").y1 - (mp f0 "").y0) :
    ∃ r : RenderResult,
      text_to_image env mp "" font_path font_size max_width bold italic
        strikethrough align fuel = .ok (some r) ∧
      r.width = max_width ∧
      2 * Int.fdiv font_size 5 ≤ r.height := by
  have hmax : (measureBlock mp f0 (pySplitLines "")).maxWidth =
      max 0 ((mp f0 "").x1 - (mp f0 "").x0) := rfl
  have hth : (measureBlock mp f0 (pySplitLines "")).totalHeight =
      0 + ((mp f0 "").y1 - (mp f0 "").y0) := rfl
  have hfit : (measureBlock mp f0 (pySplitLines "")).maxWidth ≤
      max_width := by
    rw [hmax]
    omega
  have hloop := shrinkLoop_fit_immediate env mp font_path (pySplitLines "")
    max_width fuel f0 font_size _ hfit
  refine ⟨finishRender mp strikethrough align (pySplitLines "") max_width f0
    font_size (measureBlock mp f0 (pySplitLines "")), ?_, ?_, ?_⟩
  · exact text_to_image_eq env mp "" font_path font_size max_width bold
      italic strikethrough align fuel f0 "" f0 font_size _ happ hloop
  · exact finishRender_width _ _ _ _ _ _ _ _
  · rw [finishRender_height_of_fit _ _ _ _ _ _ _ _ hfit, hth]
    generalize Int.fdiv font_size 5 = p
    omega

/-- Witness for claim C9: empty text at size 20 and target 384, with the
empty line measuring an empty bbox, yields a 384-wide raster of height at
least 8. -/
theorem empty_text_minimal_raster_witness :
    ∃ r : RenderResult,
      text_to_image envAll mpZero "" "arial.ttf" 20 384 false false false
        "left" 5 = .ok (some r) ∧
      r.width = 384 ∧
      2 * Int.fdiv 20 5 ≤ r.height :=
  empty_text_minimal_raster envAll mpZero "arial.ttf" 20 384 false false
    false "left" 5 ⟨"arial.ttf", 20⟩ rfl (by decide) (by decide) (by decide)

end Catprinter
